import Mathlib

/-!
Verification of the local-CSF mask pipeline (`src/utils/process_roi.py`,
`src/utils/extract_csf.py`, `src/utils/func_timeseries.py`).

Volumetric data is embedded shallowly: a NIfTI image is a 3-D shape, a 4×4
rational affine, a dtype marker, and a total data function from integer voxel
indices to exact rationals (numpy float arrays are modelled with exact
rational arithmetic).  File I/O (path existence checks, loading, saving) is
outside the embedding: each function takes the already-loaded artifacts that
the corresponding Python function would read from disk.
-/

namespace LocalCsf

/-- Voxel index: (x, y, z) coordinates into a 3-D array. -/
abbrev Idx : Type := ℕ × ℕ × ℕ

/-- Array shape (nx, ny, nz). -/
abbrev Shape : Type := ℕ × ℕ × ℕ

/-- 4×4 affine transform of a NIfTI image, with exact rational entries. -/
abbrev Affine : Type := Fin 4 → Fin 4 → ℚ

/-- Array dtype marker.  `get_fdata` always yields floats (here: ℚ); the
mask-producing functions call `astype(np.uint8)` before wrapping the result
in a new `Nifti1Image`, which we record in this marker. -/
inductive DType : Type
  | float64 : DType
  | uint8 : DType
deriving DecidableEq

/-- Interpolation mode passed to `nilearn.image.resample_img`. -/
inductive Interp : Type
  | nearest : Interp
  | linear : Interp
deriving DecidableEq

/-- A loaded NIfTI image: shape, affine, dtype and voxel data.  The data
function is total on ℕ³; only values at indices inside `shape` are
meaningful (out-of-bounds values play no role in any operation). -/
structure NiftiImage : Type where
  shape : Shape
  affine : Affine
  dtype : DType
  data : Idx → ℚ

/-- Errors raised by the pipeline functions (`ValueError`s and the numpy
broadcast failure, given distinguishing names). -/
inductive PipelineError : Type
  | configurationError : PipelineError
  | notBinary : PipelineError
  | emptyResult : PipelineError
  | alignmentError : PipelineError
  | missingCsfColumn : PipelineError
  | resampleError : PipelineError
  | broadcastError : PipelineError
  | missingColumns : List String → PipelineError
deriving DecidableEq

/-- Bounds check for a voxel index against a shape. -/
def inBounds (sh : Shape) (p : Idx) : Bool :=
  decide (p.1 < sh.1) && decide (p.2.1 < sh.2.1) && decide (p.2.2 < sh.2.2)

/-- All in-bounds indices of a shape, in row-major order. -/
def idxList (sh : Shape) : List Idx :=
  (List.range sh.1).flatMap fun x =>
    (List.range sh.2.1).flatMap fun y =>
      (List.range sh.2.2).map fun z => (x, y, z)

theorem mem_idxList {sh : Shape} {p : Idx} : p ∈ idxList sh ↔ inBounds sh p = true := by
  obtain ⟨x, y, z⟩ := p
  simp only [idxList, inBounds, List.mem_flatMap, List.mem_map, List.mem_range,
    Bool.and_eq_true, decide_eq_true_eq]
  constructor
  · rintro ⟨a, ha, b, hb, c, hc, h⟩
    simp only [Prod.mk.injEq] at h
    obtain ⟨rfl, rfl, rfl⟩ := h
    exact ⟨⟨ha, hb⟩, hc⟩
  · rintro ⟨⟨hx, hy⟩, hz⟩
    exact ⟨x, hx, y, hy, z, hz, rfl⟩

/-- `np.all(np.logical_or(a == 0, a == 1))`: every in-bounds voxel is exactly
0 or 1. -/
def isBinaryVol (v : NiftiImage) : Bool :=
  (idxList v.shape).all fun p => decide (v.data p = 0 ∨ v.data p = 1)

theorem isBinaryVol_iff {v : NiftiImage} :
    isBinaryVol v = true ↔ ∀ p : Idx, inBounds v.shape p = true → v.data p = 0 ∨ v.data p = 1 := by
  constructor
  · intro h p hp
    have := List.all_eq_true.mp h p (mem_idxList.mpr hp)
    exact of_decide_eq_true this
  · intro h
    refine List.all_eq_true.mpr fun p hp => decide_eq_true ?_
    exact h p (mem_idxList.mp hp)

/-- Maximum of a list of rationals (`np.max`).  `np.max` raises on an empty
array; in the pipeline it is only ever reached for non-binary volumes, which
are necessarily nonempty (an empty array satisfies `np.all`, hence counts as
binary), so the value returned for `[]` below is never consulted. -/
def listMax : List ℚ → ℚ
  | [] => 0
  | [x] => x
  | x :: y :: rest =>
    if x ≤ listMax (y :: rest) then listMax (y :: rest) else x

/-- `np.max(volume)` over the in-bounds voxels. -/
def volMaxVal (v : NiftiImage) : ℚ :=
  listMax ((idxList v.shape).map v.data)

/-- Truncation of a rational toward zero (the C float→int conversion). -/
def truncInt (q : ℚ) : ℤ :=
  Int.tdiv q.num (q.den : ℤ)

/-- `astype(np.uint8)` applied to one float value: truncate toward zero and
wrap modulo 2^8.  On the {0, 1} values produced by the mask functions this is
the identity. -/
def npCastUInt8 (q : ℚ) : ℚ :=
  (((truncInt q).emod 256 : ℤ) : ℚ)

theorem npCastUInt8_zero : npCastUInt8 0 = 0 := by decide

theorem npCastUInt8_one : npCastUInt8 1 = 1 := by decide

/-! ### Result accessors

Observations on an `Except`-wrapped image result, used to state theorems
without existential binders. -/

/-- Voxel value of a successful result at an index. -/
def dataAt (r : Except PipelineError NiftiImage) (p : Idx) : Option ℚ :=
  match r with
  | Except.ok w => some (w.data p)
  | Except.error _ => none

/-- Whether the computation succeeded. -/
def isOkE (r : Except PipelineError NiftiImage) : Bool :=
  match r with
  | Except.ok _ => true
  | Except.error _ => false

/-- Affine of a successful result. -/
def affineOf (r : Except PipelineError NiftiImage) : Option Affine :=
  match r with
  | Except.ok w => some w.affine
  | Except.error _ => none

/-- Dtype of a successful result. -/
def dtypeOf (r : Except PipelineError NiftiImage) : Option DType :=
  match r with
  | Except.ok w => some w.dtype
  | Except.error _ => none

/-- Shape of a successful result. -/
def shapeOf (r : Except PipelineError NiftiImage) : Option Shape :=
  match r with
  | Except.ok w => some w.shape
  | Except.error _ => none

/-! ### Binarizer — `threshold_roi_mask` (src/utils/process_roi.py lines 157-238) -/

/-- The effective threshold: `roi_threshold *= 100` when
`roi_max_val > 1.1` (process_roi.py lines 215-219). -/
def effectiveThreshold (v : NiftiImage) (t : ℚ) : ℚ :=
  if volMaxVal v > 11/10 then t * 100 else t

/-- The data of the binarized array before the uint8 cast: the input copied
unchanged when already binary (line 211), else
`np.where(data >= threshold, 1, 0)` with the effective threshold
(line 223). -/
def binarizeData (v : NiftiImage) (t : ℚ) : Idx → ℚ :=
  if isBinaryVol v = true then v.data
  else fun p => if v.data p ≥ effectiveThreshold v t then 1 else 0

/-- `threshold_roi_mask(proc_roi, roi_threshold)`: validates
`roi_threshold ∈ [0,1]` (lines 199-200), binarizes if necessary, and returns
`Nifti1Image(binary.astype(np.uint8), affine, header)` (lines 227-230).
The `proc_roi_path is None` check and file loading are I/O and outside the
embedding; the function receives the loaded image. -/
def threshold_roi_mask (v : NiftiImage) (roi_threshold : ℚ) :
    Except PipelineError NiftiImage :=
  if roi_threshold < 0 ∨ roi_threshold > 1 then
    Except.error PipelineError.configurationError
  else
    Except.ok ⟨v.shape, v.affine, DType.uint8,
      fun p => npCastUInt8 (binarizeData v roi_threshold p)⟩

/-! ### MorphologicalDilator — `dilate_binary_roi_mask`
(src/utils/process_roi.py lines 240-306) -/

/-- Face (6-connectivity) neighbours of a voxel, the nonzero offsets of
`scipy.ndimage.generate_binary_structure(3, 1)`, scipy's default structuring
element for `binary_dilation` on a rank-3 array.  Coordinates are naturals,
so the three negative offsets exist only away from the zero faces. -/
def faceNeighbors (p : Idx) : List Idx :=
  match p with
  | (x, y, z) =>
    [(x + 1, y, z), (x, y + 1, z), (x, y, z + 1)]
      ++ (if 0 < x then [(x - 1, y, z)] else [])
      ++ (if 0 < y then [(x, y - 1, z)] else [])
      ++ (if 0 < z then [(x, y, z - 1)] else [])

/-- One step of scipy's `binary_dilation`: a voxel is set iff it is inside
the array and either it or one of its in-bounds face neighbours was set
(out-of-array input is taken as 0: `border_value = 0`). -/
def dilateOnce (sh : Shape) (m : Idx → Bool) : Idx → Bool :=
  fun p => inBounds sh p && (m p || (faceNeighbors p).any fun q => inBounds sh q && m q)

/-- Number of voxels of a shape. -/
def voxelCount (sh : Shape) : ℕ :=
  sh.1 * sh.2.1 * sh.2.2

/-- `scipy.ndimage.binary_dilation(input, iterations=k)`: for `k ≥ 1` the
single-step dilation is applied `k` times; for `k < 1` scipy repeats the
dilation **until the result no longer changes**.  Since the single step only
ever adds voxels inside the finite array, the repetition stabilizes after at
most `voxelCount` steps, so the until-stable limit is the `voxelCount`-fold
iterate. -/
def binaryDilationNp (sh : Shape) (m : Idx → Bool) (iterations : ℕ) : Idx → Bool :=
  if iterations = 0 then (dilateOnce sh)^[voxelCount sh] m
  else (dilateOnce sh)^[iterations] m

/-- Boolean view of a loaded volume, as scipy's `binary_dilation` coerces its
input: in-bounds and nonzero. -/
def maskOf (v : NiftiImage) : Idx → Bool :=
  fun p => inBounds v.shape p && decide (v.data p ≠ 0)

/-- `dilate_binary_roi_mask(threshold_roi, iterations)`: validates that the
input is binary (lines 290-292, `ValueError` otherwise), applies
`binary_dilation` (line 296) and wraps
`Nifti1Image(dilated.astype(np.uint8), affine, header)` (lines 297-299). -/
def dilate_binary_roi_mask (img : NiftiImage) (iterations : ℕ) :
    Except PipelineError NiftiImage :=
  if isBinaryVol img = true then
    Except.ok ⟨img.shape, img.affine, DType.uint8,
      fun p => npCastUInt8
        (if binaryDilationNp img.shape (maskOf img) iterations p then 1 else 0)⟩
  else Except.error PipelineError.notBinary

/-! ### LocalMaskDeriver — `extract_local_csf_mask`
(src/utils/extract_csf.py lines 8-103) -/

/-- Lines 68-70: the CSF data after the optional thresholding step —
`np.where(csf_np >= csf_threshold, 1, 0)` when not already binary.  Note the
source applies the raw `csf_threshold` with no range validation and no
max-value rescaling. -/
def thresholdedCsf (csf : NiftiImage) (csf_threshold : ℚ) : Idx → ℚ :=
  if isBinaryVol csf = true then csf.data
  else fun p => if csf.data p ≥ csf_threshold then 1 else 0

/-- Lines 85-86: `np.where((csf > 0) & (dilated > 0) & (original == 0), 1, 0)`. -/
def localCsfOf (csfTh : Idx → ℚ) (roiB dil : NiftiImage) : Idx → ℚ :=
  fun p => if csfTh p > 0 ∧ dil.data p > 0 ∧ roiB.data p = 0 then 1 else 0

/-- `np.sum` of an array over a shape. -/
def localSum (sh : Shape) (f : Idx → ℚ) : ℚ :=
  ((idxList sh).map f).foldr (fun a b => a + b) 0

/-- `extract_local_csf_mask(csf, threshold_roi, dilated_roi, csf_threshold)`:
thresholds the CSF volume if non-binary (lines 68-70), combines the three
arrays elementwise (lines 85-86), raises `ValueError` when the result is
all-zero (lines 87-88), and wraps
`Nifti1Image(local.astype(np.uint8), dilated.affine, dilated.header)`
(lines 92-95).  The source performs **no** grid validation; the elementwise
numpy expression is modelled for identically-shaped arrays, any other shape
combination surfacing as a low-level broadcast error (numpy raises for
non-broadcastable shapes; general broadcasting is not modelled and no claim
depends on it). -/
def extract_local_csf_mask (csf roiB dil : NiftiImage) (csf_threshold : ℚ) :
    Except PipelineError NiftiImage :=
  if csf.shape = roiB.shape ∧ csf.shape = dil.shape then
    if localSum dil.shape (localCsfOf (thresholdedCsf csf csf_threshold) roiB dil) = 0 then
      Except.error PipelineError.emptyResult
    else
      Except.ok ⟨dil.shape, dil.affine, DType.uint8,
        fun p => npCastUInt8 (localCsfOf (thresholdedCsf csf csf_threshold) roiB dil p)⟩
  else Except.error PipelineError.broadcastError

/-! ### SpatialResampler — `process_roi_mask`
(src/utils/process_roi.py lines 64-155) -/

/-- The external `nilearn.image.resample_img(img, target_affine, target_shape,
interpolation)` call, supplied as a parameter of the embedding. -/
abbrev Resampler : Type := NiftiImage → Affine → Shape → Interp → NiftiImage

/-- `process_roi_mask(roi, template)`: when the shapes differ (line 126 —
only the shapes are compared, never the affines), the ROI is resampled onto
the template's affine and shape with nearest interpolation for binary data
and linear otherwise (lines 129-136), and a residual shape mismatch raises
`ValueError` (lines 138-139); when the shapes already match the input image
itself is returned (line 143).  The `template_path = None` branch (line 146)
and all file I/O are outside the embedding. -/
def process_roi_mask (resampleImg : Resampler) (roi tmpl : NiftiImage) :
    Except PipelineError NiftiImage :=
  if roi.shape ≠ tmpl.shape then
    if (resampleImg roi tmpl.affine tmpl.shape
          (if isBinaryVol roi = true then Interp.nearest else Interp.linear)).shape
        ≠ tmpl.shape then
      Except.error PipelineError.resampleError
    else
      Except.ok (resampleImg roi tmpl.affine tmpl.shape
        (if isBinaryVol roi = true then Interp.nearest else Interp.linear))
  else Except.ok roi

/-! ### ConfoundAugmenter — `add_local_csf_time_series_to_confound_file`
(src/utils/extract_csf.py lines 179-248) -/

/-- A pandas DataFrame as read by `read_csv`: ordered named columns, each an
ordered list of values; row `i` is the `i`-th entry of every column, and both
frames involved carry the default positional RangeIndex, so column assignment
aligns positionally.  In a real frame every column has the same length. -/
abbrev Table : Type := List (String × List ℚ)

/-- Whether a column name is present (`name in df.columns`). -/
def hasCol (t : Table) (n : String) : Bool :=
  t.any fun c => decide (c.1 = n)

/-- The values of the first column with the given name. -/
def getCol (t : Table) (n : String) : Option (List ℚ) :=
  (t.find? fun c => decide (c.1 = n)).map fun c => c.2

/-- `len(df)`: the row count (columns of a DataFrame are uniform-length). -/
def nRows (t : Table) : ℕ :=
  match t with
  | [] => 0
  | c :: _ => c.2.length

/-- Column names, in order (`df.columns`). -/
def colNames (t : Table) : List String :=
  t.map fun c => c.1

/-- `df[name] = values`: replace the column in place when the name exists,
else append it as the last column (pandas assignment semantics). -/
def setCol (t : Table) (n : String) (vals : List ℚ) : Table :=
  if hasCol t n = true then
    t.map fun c => if c.1 = n then (n, vals) else c
  else t ++ [(n, vals)]

/-- `f"{roi}_local_csf"`. -/
def csfColName (roi : String) : String :=
  roi ++ "_local_csf"

/-- `add_local_csf_time_series_to_confound_file(confounds, csf_ts, roi)`:
requires the `{roi}_local_csf` column in the time-series frame
(lines 229-231), raises `ValueError` on a row-count mismatch (lines 234-235),
else assigns the column into the confound frame (line 239) and returns a copy
(line 240).  File loading/saving is outside the embedding. -/
def add_local_csf_time_series_to_confound_file (conf csfTs : Table) (roi : String) :
    Except PipelineError Table :=
  if hasCol csfTs (csfColName roi) = false then
    Except.error PipelineError.missingCsfColumn
  else if nRows conf ≠ nRows csfTs then
    Except.error PipelineError.alignmentError
  else
    Except.ok (setCol conf (csfColName roi) ((getCol csfTs (csfColName roi)).getD []))

/-! ### SignalCleaner confound selection — `compute_functional_timeseries`
(src/utils/func_timeseries.py lines 62-75) -/

/-- The three-way confound selection sentinel: the string `"Default"`, the
Python `None`, or an explicit list of column names. -/
inductive ConfoundSel : Type
  | defaultSel : ConfoundSel
  | noSel : ConfoundSel
  | explicitSel : List String → ConfoundSel

/-- Line 66: `['X', 'Y', 'Z', 'RotX', 'RotY', 'RotZ']`. -/
def motionCols : List String :=
  ["X", "Y", "Z", "RotX", "RotY", "RotZ"]

/-- Lines 64-67: resolve the sentinel to the requested column names
(`Default` becomes the motion set plus `{roi_name}_local_csf`). -/
def resolveConfoundVars (roi_name : String) : ConfoundSel → Option (List String)
  | ConfoundSel.defaultSel => some (motionCols ++ [csfColName roi_name])
  | ConfoundSel.noSel => none
  | ConfoundSel.explicitSel l => some l

/-- Lines 68-75 of `compute_functional_timeseries`: build the confound
matrix.  With a selection present, `missing = [c for c in confound_vars if
c not in conf_df.columns]` is computed and a nonempty `missing` raises one
`ValueError` naming the whole list; otherwise the selected columns are
extracted. -/
def confoundMatrix (conf : Table) (roi_name : String) (sel : ConfoundSel) :
    Except PipelineError (Option (List (List ℚ))) :=
  match resolveConfoundVars roi_name sel with
  | none => Except.ok none
  | some vars =>
    if vars.filter (fun c => !(hasCol conf c)) = [] then
      Except.ok (some (vars.map fun c => (getCol conf c).getD []))
    else Except.error (PipelineError.missingColumns (vars.filter fun c => !(hasCol conf c)))

/-! ### Dilation lemmas -/

/-- A mask that is false outside the array. -/
def Confined (sh : Shape) (m : Idx → Bool) : Prop :=
  ∀ p : Idx, m p = true → inBounds sh p = true

theorem maskOf_confined (v : NiftiImage) : Confined v.shape (maskOf v) := by
  intro p h
  unfold maskOf at h
  simp only [Bool.and_eq_true] at h
  exact h.1

theorem dilateOnce_inBounds {sh : Shape} {m : Idx → Bool} {p : Idx}
    (h : dilateOnce sh m p = true) : inBounds sh p = true := by
  unfold dilateOnce at h
  simp only [Bool.and_eq_true] at h
  exact h.1

theorem dilateOnce_confined (sh : Shape) (m : Idx → Bool) :
    Confined sh (dilateOnce sh m) :=
  fun _ h => dilateOnce_inBounds h

theorem self_le_dilateOnce {sh : Shape} {m : Idx → Bool} {p : Idx}
    (hb : inBounds sh p = true) (hm : m p = true) : dilateOnce sh m p = true := by
  unfold dilateOnce
  rw [hb, hm]
  rfl

theorem confined_iterate {sh : Shape} {m : Idx → Bool} (hc : Confined sh m) (k : ℕ) :
    Confined sh ((dilateOnce sh)^[k] m) := by
  cases k with
  | zero => exact hc
  | succ n =>
    rw [Function.iterate_succ_apply']
    exact dilateOnce_confined sh _

theorem iterate_le_succ {sh : Shape} {m : Idx → Bool} (hc : Confined sh m) (k : ℕ)
    (p : Idx) (hp : (dilateOnce sh)^[k] m p = true) :
    (dilateOnce sh)^[k + 1] m p = true := by
  rw [Function.iterate_succ_apply']
  exact self_le_dilateOnce (confined_iterate hc k p hp) hp

theorem iterate_mono_iters {sh : Shape} {m : Idx → Bool} (hc : Confined sh m)
    {k l : ℕ} (hkl : k ≤ l) (p : Idx) (hp : (dilateOnce sh)^[k] m p = true) :
    (dilateOnce sh)^[l] m p = true := by
  induction hkl with
  | refl => exact hp
  | step _ ih => exact iterate_le_succ hc _ p ih

theorem self_le_iterate {sh : Shape} {m : Idx → Bool} (hc : Confined sh m) (k : ℕ)
    (p : Idx) (hp : m p = true) : (dilateOnce sh)^[k] m p = true := by
  have h0 : (dilateOnce sh)^[0] m p = true := hp
  exact iterate_mono_iters hc (Nat.zero_le k) p h0

theorem self_le_binaryDilationNp {sh : Shape} {m : Idx → Bool} (hc : Confined sh m)
    (k : ℕ) (p : Idx) (hp : m p = true) : binaryDilationNp sh m k p = true := by
  unfold binaryDilationNp
  split
  · exact self_le_iterate hc _ p hp
  · exact self_le_iterate hc _ p hp

/-! ### Table lemmas -/

/-- The replace branch of `setCol`, named for the induction proofs. -/
def replaceCol (t : Table) (n : String) (vals : List ℚ) : Table :=
  t.map fun c => if c.1 = n then (n, vals) else c

theorem setCol_eq (t : Table) (n : String) (vals : List ℚ) :
    setCol t n vals =
      if hasCol t n = true then replaceCol t n vals else t ++ [(n, vals)] :=
  rfl

theorem getCol_replaceCol_self (t : Table) (n : String) (vals : List ℚ)
    (h : hasCol t n = true) : getCol (replaceCol t n vals) n = some vals := by
  induction t with
  | nil => cases h
  | cons d rest ih =>
    by_cases hd : d.1 = n
    · simp [replaceCol, getCol, List.find?_cons, hd]
    · have hrest : hasCol rest n = true := by
        simpa [hasCol, List.any_cons, hd] using h
      have := ih hrest
      simpa [replaceCol, getCol, List.find?_cons, hd] using this

theorem getCol_cons (c : String × List ℚ) (rest : Table) (m : String) :
    getCol (c :: rest) m = if c.1 = m then some c.2 else getCol rest m := by
  unfold getCol
  rw [List.find?_cons]
  by_cases h : c.1 = m
  · simp [h]
  · simp [h]

theorem replaceCol_cons (c : String × List ℚ) (rest : Table) (n : String)
    (vals : List ℚ) :
    replaceCol (c :: rest) n vals =
      (if c.1 = n then (n, vals) else c) :: replaceCol rest n vals :=
  rfl

theorem getCol_replaceCol_other (t : Table) (n m : String) (vals : List ℚ)
    (hnm : m ≠ n) : getCol (replaceCol t n vals) m = getCol t m := by
  induction t with
  | nil => rfl
  | cons d rest ih =>
    rw [replaceCol_cons, getCol_cons, getCol_cons]
    by_cases hd : d.1 = n
    · have hdm : ¬ d.1 = m := fun hh => hnm (hh ▸ hd)
      have hnm2 : ¬ n = m := fun hh => hnm hh.symm
      rw [if_pos hd]
      simp only [if_neg hnm2, if_neg hdm]
      exact ih
    · rw [if_neg hd]
      by_cases hdm : d.1 = m
      · rw [if_pos hdm, if_pos hdm]
      · rw [if_neg hdm, if_neg hdm]
        exact ih

theorem getCol_setCol_self (t : Table) (n : String) (vals : List ℚ) :
    getCol (setCol t n vals) n = some vals := by
  rw [setCol_eq]
  split
  · rename_i h
    exact getCol_replaceCol_self t n vals h
  · rename_i h
    have hnone : t.find? (fun c => decide (c.1 = n)) = none := by
      rw [List.find?_eq_none]
      intro c hc hcn
      exact h (List.any_eq_true.mpr ⟨c, hc, hcn⟩)
    simp [getCol, List.find?_append, hnone, List.find?_cons]

theorem getCol_setCol_other (t : Table) (n m : String) (vals : List ℚ)
    (hnm : m ≠ n) : getCol (setCol t n vals) m = getCol t m := by
  rw [setCol_eq]
  split
  · exact getCol_replaceCol_other t n m vals hnm
  · unfold getCol
    rw [List.find?_append]
    have hone : List.find? (fun c => decide (c.1 = m)) [(n, vals)] = none := by
      have hne : ¬ n = m := fun hh => hnm hh.symm
      simp [List.find?_cons, hne]
    cases hfind : t.find? fun c => decide (c.1 = m) <;> simp [hfind, hone]

theorem colNames_replaceCol (t : Table) (n : String) (vals : List ℚ) :
    colNames (replaceCol t n vals) = colNames t := by
  unfold colNames replaceCol
  rw [List.map_map]
  apply List.map_congr_left
  intro c _
  by_cases hd : c.1 = n <;> simp [hd]

theorem colNames_setCol (t : Table) (n : String) (vals : List ℚ) :
    colNames (setCol t n vals) =
      if hasCol t n = true then colNames t else colNames t ++ [n] := by
  rw [setCol_eq]
  split
  · exact colNames_replaceCol t n vals
  · simp [colNames]

/-! ### Concrete fixtures for witnesses and counterexamples -/

/-- Identity affine. -/
def affA : Affine := fun i j => if i = j then 1 else 0

/-- A second, different affine (2 mm isotropic, say). -/
def affB : Affine := fun i j => if i = j then 2 else 0

/-- A third affine. -/
def affC : Affine := fun i j => if i = j then 3 else 0

theorem affA_ne_affB : affA ≠ affB := by
  intro h
  have h00 := congrFun (congrFun h 0) 0
  simp [affA, affB] at h00

/-- A 3×1×1 binary mask with only the first voxel set. -/
def img3 : NiftiImage :=
  ⟨(3, 1, 1), affA, DType.float64, fun p => if p = ((0 : ℕ), (0 : ℕ), (0 : ℕ)) then 1 else 0⟩

/-- A 3×1×1 probabilistic volume with values 87, 29.9 and 30. -/
def v87 : NiftiImage :=
  ⟨(3, 1, 1), affA, DType.float64,
    fun p => if p.1 = 0 then 87 else if p.1 = 1 then 299/10 else 30⟩

/-- A 2×1×1 probabilistic tissue volume with values 87 and 30. -/
def tVol : NiftiImage :=
  ⟨(2, 1, 1), affA, DType.float64, fun p => if p.1 = 0 then 87 else 30⟩

/-- 2×1×1 all-zero mask. -/
def maskZero2 : NiftiImage := ⟨(2, 1, 1), affA, DType.float64, fun _ => 0⟩

/-- 2×1×1 all-one mask. -/
def maskOne2 : NiftiImage := ⟨(2, 1, 1), affA, DType.float64, fun _ => 1⟩

/-- 1×1×1 all-one CSF volume with affine `affA`. -/
def csfA1 : NiftiImage := ⟨(1, 1, 1), affA, DType.float64, fun _ => 1⟩

/-- 1×1×1 all-zero ROI mask with a different affine `affB`. -/
def roiB1 : NiftiImage := ⟨(1, 1, 1), affB, DType.float64, fun _ => 0⟩

/-- 1×1×1 all-one dilated mask with a third affine `affC`. -/
def dilC1 : NiftiImage := ⟨(1, 1, 1), affC, DType.float64, fun _ => 1⟩

/-- 1×1×1 ROI image with affine `affA`. -/
def roiS : NiftiImage := ⟨(1, 1, 1), affA, DType.float64, fun _ => 1⟩

/-- 1×1×1 template image with a different affine `affB` but the same shape. -/
def tmplS : NiftiImage := ⟨(1, 1, 1), affB, DType.float64, fun _ => 0⟩

/-- 2×2×2 template image. -/
def tmplBig : NiftiImage := ⟨(2, 2, 2), affB, DType.float64, fun _ => 0⟩

/-- A resampler stub that returns its input unchanged (the branch of
`process_roi_mask` under test never calls it). -/
def idResample : Resampler := fun v _ _ _ => v

/-- A resampler stub that produces a zero image on the requested grid. -/
def constResample : Resampler := fun _ a s _ => ⟨s, a, DType.float64, fun _ => 0⟩

/-- The image `constResample` produces for the `tmplBig` grid. -/
def wBig : NiftiImage := ⟨(2, 2, 2), affB, DType.float64, fun _ => 0⟩

/-- A small confound table with motion-like columns of 3 rows. -/
def confT : Table := [("X", [1, 2, 3]), ("Y", [4, 5, 6])]

/-- A CSF time-series table for ROI "PAG" with 3 rows. -/
def csfT : Table := [("PAG_local_csf", [7, 8, 9])]

/-- A confound table with 150 rows. -/
def conf150 : Table := [("X", List.replicate 150 0)]

/-- A CSF time-series table with 148 rows. -/
def csf148 : Table := [("PAG_local_csf", List.replicate 148 0)]

/-! ### Branch lemmas for the binarization steps -/

theorem binarizeData_binary {v : NiftiImage} {t : ℚ} (h : isBinaryVol v = true) :
    binarizeData v t = v.data := by
  unfold binarizeData
  rw [if_pos h]

theorem binarizeData_nonbinary {v : NiftiImage} {t : ℚ} (h : isBinaryVol v = false)
    (p : Idx) :
    binarizeData v t p = if v.data p ≥ effectiveThreshold v t then 1 else 0 := by
  unfold binarizeData
  rw [if_neg (by simp [h] : ¬ isBinaryVol v = true)]

theorem thresholdedCsf_nonbinary {csf : NiftiImage} {t : ℚ} (h : isBinaryVol csf = false)
    (p : Idx) :
    thresholdedCsf csf t p = if csf.data p ≥ t then 1 else 0 := by
  unfold thresholdedCsf
  rw [if_neg (by simp [h] : ¬ isBinaryVol csf = true)]

/-! ### Evaluation lemmas on the fixtures -/

theorem idxList_111 : idxList (1, 1, 1) = [(0, 0, 0)] := by decide

theorem idxList_211 : idxList (2, 1, 1) = [(0, 0, 0), (1, 0, 0)] := by decide

theorem idxList_311 : idxList (3, 1, 1) = [(0, 0, 0), (1, 0, 0), (2, 0, 0)] := by decide

theorem isBinaryVol_csfA1 : isBinaryVol csfA1 = true := by decide

theorem isBinaryVol_tVol : isBinaryVol tVol = false := by
  rw [Bool.eq_false_iff]
  intro h
  have h0 := isBinaryVol_iff.mp h (0, 0, 0) (by decide)
  rw [show tVol.data (0, 0, 0) = 87 from rfl] at h0
  norm_num at h0

theorem isBinaryVol_v87 : isBinaryVol v87 = false := by
  rw [Bool.eq_false_iff]
  intro h
  have h0 := isBinaryVol_iff.mp h (0, 0, 0) (by decide)
  rw [show v87.data (0, 0, 0) = 87 from rfl] at h0
  norm_num at h0

theorem volMaxVal_tVol : volMaxVal tVol = 87 := by
  unfold volMaxVal
  rw [show tVol.shape = (2, 1, 1) from rfl, idxList_211]
  simp only [List.map_cons, List.map_nil]
  rw [show tVol.data (0, 0, 0) = 87 from rfl, show tVol.data (1, 0, 0) = 30 from rfl]
  simp only [listMax]
  norm_num

theorem volMaxVal_v87 : volMaxVal v87 = 87 := by
  unfold volMaxVal
  rw [show v87.shape = (3, 1, 1) from rfl, idxList_311]
  simp only [List.map_cons, List.map_nil]
  rw [show v87.data (0, 0, 0) = 87 from rfl, show v87.data (1, 0, 0) = 299/10 from rfl,
    show v87.data (2, 0, 0) = 30 from rfl]
  simp only [listMax]
  norm_num

theorem thresholdedCsf_csfA1 : thresholdedCsf csfA1 (3/5) = csfA1.data := by
  unfold thresholdedCsf
  rw [if_pos isBinaryVol_csfA1]

theorem localCsf_csfA1_eval :
    localCsfOf (thresholdedCsf csfA1 (3/5)) roiB1 dilC1 (0, 0, 0) = 1 := by
  unfold localCsfOf
  rw [thresholdedCsf_csfA1]
  rw [if_pos (⟨by norm_num [csfA1], by norm_num [dilC1], by norm_num [roiB1]⟩ :
    csfA1.data (0, 0, 0) > 0 ∧ dilC1.data (0, 0, 0) > 0 ∧ roiB1.data (0, 0, 0) = 0)]

theorem localSum_csfA1 :
    localSum dilC1.shape (localCsfOf (thresholdedCsf csfA1 (3/5)) roiB1 dilC1) = 1 := by
  unfold localSum
  rw [show dilC1.shape = (1, 1, 1) from rfl, idxList_111]
  simp only [List.map_cons, List.map_nil, List.foldr_cons, List.foldr_nil]
  rw [localCsf_csfA1_eval]
  norm_num

theorem extract_csfA1_ok : isOkE (extract_local_csf_mask csfA1 roiB1 dilC1 (3/5)) = true := by
  unfold extract_local_csf_mask
  rw [if_pos ⟨rfl, rfl⟩, if_neg (by rw [localSum_csfA1]; norm_num)]
  rfl

theorem extract_csfA1_data :
    dataAt (extract_local_csf_mask csfA1 roiB1 dilC1 (3/5)) (0, 0, 0) = some 1 := by
  unfold extract_local_csf_mask
  rw [if_pos ⟨rfl, rfl⟩, if_neg (by rw [localSum_csfA1]; norm_num)]
  simp only [dataAt]
  rw [localCsf_csfA1_eval, npCastUInt8_one]

theorem localCsf_tVol_eval (p : Idx) :
    localCsfOf (thresholdedCsf tVol (3/5)) maskZero2 maskOne2 p =
      if tVol.data p ≥ 3/5 then 1 else 0 := by
  unfold localCsfOf
  rw [thresholdedCsf_nonbinary isBinaryVol_tVol]
  by_cases hc : tVol.data p ≥ 3/5
  · rw [if_pos hc, if_pos (⟨by norm_num, by norm_num [maskOne2], by norm_num [maskZero2]⟩ :
      (1 : ℚ) > 0 ∧ maskOne2.data p > 0 ∧ maskZero2.data p = 0)]
  · rw [if_neg hc, if_neg (fun h : (0 : ℚ) > 0 ∧ maskOne2.data p > 0 ∧ maskZero2.data p = 0 =>
      absurd h.1 (by norm_num))]

theorem localSum_tVol :
    localSum maskOne2.shape (localCsfOf (thresholdedCsf tVol (3/5)) maskZero2 maskOne2) = 2 := by
  unfold localSum
  rw [show maskOne2.shape = (2, 1, 1) from rfl, idxList_211]
  simp only [List.map_cons, List.map_nil, List.foldr_cons, List.foldr_nil]
  rw [localCsf_tVol_eval (0, 0, 0), localCsf_tVol_eval (1, 0, 0)]
  rw [show tVol.data (0, 0, 0) = 87 from rfl, show tVol.data (1, 0, 0) = 30 from rfl]
  norm_num

theorem extract_tVol_ok :
    isOkE (extract_local_csf_mask tVol maskZero2 maskOne2 (3/5)) = true := by
  unfold extract_local_csf_mask
  rw [if_pos ⟨rfl, rfl⟩, if_neg (by rw [localSum_tVol]; norm_num)]
  rfl

theorem extract_tVol_data :
    dataAt (extract_local_csf_mask tVol maskZero2 maskOne2 (3/5)) (1, 0, 0) = some 1 := by
  unfold extract_local_csf_mask
  rw [if_pos ⟨rfl, rfl⟩, if_neg (by rw [localSum_tVol]; norm_num)]
  simp only [dataAt]
  rw [localCsf_tVol_eval (1, 0, 0), show tVol.data (1, 0, 0) = 30 from rfl,
    if_pos (by norm_num : (30 : ℚ) ≥ 3/5), npCastUInt8_one]

theorem threshold_tVol_data :
    dataAt (threshold_roi_mask tVol (3/5)) (1, 0, 0) = some 0 := by
  unfold threshold_roi_mask
  rw [if_neg (by norm_num : ¬ ((3 : ℚ)/5 < 0 ∨ (3 : ℚ)/5 > 1))]
  simp only [dataAt]
  rw [binarizeData_nonbinary isBinaryVol_tVol]
  unfold effectiveThreshold
  rw [volMaxVal_tVol, if_pos (by norm_num : (87 : ℚ) > 11/10),
    show tVol.data (1, 0, 0) = 30 from rfl,
    if_neg (by norm_num : ¬ (30 : ℚ) ≥ 3/5 * 100), npCastUInt8_zero]

theorem threshold_v87_ok : isOkE (threshold_roi_mask v87 (3/10)) = true := by
  unfold threshold_roi_mask
  rw [if_neg (by norm_num : ¬ ((3 : ℚ)/10 < 0 ∨ (3 : ℚ)/10 > 1))]
  rfl

theorem threshold_v87_data :
    dataAt (threshold_roi_mask v87 (3/10)) (0, 0, 0) = some 1 := by
  unfold threshold_roi_mask
  rw [if_neg (by norm_num : ¬ ((3 : ℚ)/10 < 0 ∨ (3 : ℚ)/10 > 1))]
  simp only [dataAt]
  rw [binarizeData_nonbinary isBinaryVol_v87]
  unfold effectiveThreshold
  rw [volMaxVal_v87, if_pos (by norm_num : (87 : ℚ) > 11/10),
    show v87.data (0, 0, 0) = 87 from rfl,
    if_pos (by norm_num : (87 : ℚ) ≥ 3/10 * 100), npCastUInt8_one]

/-! ### Claim C2 — dilation semantics -/

theorem binaryDilationNp_pos {sh : Shape} {m : Idx → Bool} {k : ℕ} (hk : ¬ k = 0) :
    binaryDilationNp sh m k = (dilateOnce sh)^[k] m := by
  unfold binaryDilationNp
  rw [if_neg hk]

/-- Claim C2 (amended): for every binary mask and `iterations = k ≥ 1`,
`dilate_binary_roi_mask` applies the face-connectivity (6-neighbor) binary
dilation step exactly `k` times, keeping the input's affine.  (The original
claim's `iterations = 0` clause fails: scipy repeats the dilation until the
result no longer changes instead of returning the input — see the
counterexample.) -/
theorem dilate_applies_iterated_face_dilation (img : NiftiImage) (k : ℕ) (p : Idx)
    (hb : isBinaryVol img = true) (hk : 1 ≤ k) :
    dataAt (dilate_binary_roi_mask img k) p =
      some (if (dilateOnce img.shape)^[k] (maskOf img) p = true then 1 else 0) ∧
    affineOf (dilate_binary_roi_mask img k) = some img.affine := by
  have hk0 : ¬ k = 0 := Nat.one_le_iff_ne_zero.mp hk
  unfold dilate_binary_roi_mask
  rw [if_pos hb]
  refine ⟨?_, rfl⟩
  simp only [dataAt]
  rw [binaryDilationNp_pos hk0]
  by_cases hcase : (dilateOnce img.shape)^[k] (maskOf img) p = true
  · rw [if_pos hcase, npCastUInt8_one]
  · rw [if_neg hcase, npCastUInt8_zero]

/-- Witness for C2: on the 3×1×1 mask `[1,0,0]` with one iteration, voxel
(1,0,0) is exactly the single-step 6-neighbor dilation value, namely 1. -/
theorem dilate_applies_iterated_face_dilation_witness :
    dataAt (dilate_binary_roi_mask img3 1) (1, 0, 0) =
      some (if (dilateOnce img3.shape)^[1] (maskOf img3) (1, 0, 0) = true then 1 else 0) ∧
    dataAt (dilate_binary_roi_mask img3 1) (1, 0, 0) = some 1 := by
  constructor
  · exact (dilate_applies_iterated_face_dilation img3 1 (1, 0, 0) (by decide) (by decide)).1
  · decide

/-- Counterexample for C2 as stated: with `iterations = 0` the result is not
the input mask — scipy dilates until stable, so the far voxel (2,0,0), which
is 0 in the input `[1,0,0]`, comes out as 1. -/
theorem dilate_zero_iterations_cex :
    dataAt (dilate_binary_roi_mask img3 0) (2, 0, 0) = some 1 ∧
    img3.data (2, 0, 0) = 0 := by
  decide

/-! ### Claim C8 — dilation monotonicity -/

/-- Claim C8 (amended): for every binary mask, `dilate(m, k) ⊇ m` for every
iteration count `k` (including the until-stable `k = 0`), and
`dilate(m, k2) ⊇ dilate(m, k1)` whenever `k2 ≥ k1 ≥ 1`.  (The original
claim's chain monotonicity fails at `k1 = 0`, where scipy dilates until
stable — see the counterexample.) -/
theorem dilate_monotone (img : NiftiImage) (k k1 k2 : ℕ) (p : Idx)
    (hb : isBinaryVol img = true) :
    (inBounds img.shape p = true → img.data p ≠ 0 →
      dataAt (dilate_binary_roi_mask img k) p = some 1) ∧
    (1 ≤ k1 → k1 ≤ k2 → dataAt (dilate_binary_roi_mask img k1) p = some 1 →
      dataAt (dilate_binary_roi_mask img k2) p = some 1) := by
  constructor
  · intro hbp hnz
    have hm : maskOf img p = true := by
      unfold maskOf
      rw [hbp, decide_eq_true hnz]
      rfl
    have hd : binaryDilationNp img.shape (maskOf img) k p = true :=
      self_le_binaryDilationNp (maskOf_confined img) k p hm
    unfold dilate_binary_roi_mask
    rw [if_pos hb]
    simp only [dataAt]
    rw [if_pos hd, npCastUInt8_one]
  · intro hk1 hk12 h1
    have hk10 : ¬ k1 = 0 := Nat.one_le_iff_ne_zero.mp hk1
    have hk20 : ¬ k2 = 0 := Nat.one_le_iff_ne_zero.mp (le_trans hk1 hk12)
    unfold dilate_binary_roi_mask at h1 ⊢
    rw [if_pos hb] at h1 ⊢
    simp only [dataAt] at h1 ⊢
    have hb1 : binaryDilationNp img.shape (maskOf img) k1 p = true := by
      by_contra hcon
      rw [if_neg hcon, npCastUInt8_zero] at h1
      exact absurd (Option.some.inj h1) (by norm_num)
    rw [binaryDilationNp_pos hk10] at hb1
    have hb2 : (dilateOnce img.shape)^[k2] (maskOf img) p = true :=
      iterate_mono_iters (maskOf_confined img) hk12 p hb1
    rw [binaryDilationNp_pos hk20, if_pos hb2, npCastUInt8_one]

/-- Witness for C8: on `[1,0,0]`, the seed voxel stays set after 2
iterations, and voxel (1,0,0), set after 1 iteration, is still set after
2 iterations. -/
theorem dilate_monotone_witness :
    dataAt (dilate_binary_roi_mask img3 2) (0, 0, 0) = some 1 ∧
    dataAt (dilate_binary_roi_mask img3 2) (1, 0, 0) = some 1 := by
  have ha := dilate_monotone img3 2 1 2 (0, 0, 0) (by decide)
  have hc := dilate_monotone img3 2 1 2 (1, 0, 0) (by decide)
  exact ⟨ha.1 (by decide) (by decide), hc.2 (by decide) (by decide) (by decide)⟩

/-- Counterexample for C8 as stated: with `k2 = 1 ≥ k1 = 0`, voxel (2,0,0)
is selected by `dilate(m, 0)` (until-stable fill) but not by `dilate(m, 1)`,
so `dilate(m, k2) ⊉ dilate(m, k1)`. -/
theorem dilate_monotone_zero_cex :
    (0 : ℕ) ≤ 1 ∧
    dataAt (dilate_binary_roi_mask img3 0) (2, 0, 0) = some 1 ∧
    dataAt (dilate_binary_roi_mask img3 1) (2, 0, 0) = some 0 := by
  decide

/-! ### Claim C5 — binarization threshold policy -/

/-- Claim C5: for a non-binary volume and threshold `t ∈ [0,1]`,
`threshold_roi_mask` uses effective threshold `100·t` when the volume's
maximum exceeds 1.1 and `t` otherwise, mapping each voxel to 1 iff its value
is ≥ the effective threshold. -/
theorem threshold_policy (v : NiftiImage) (t : ℚ) (p : Idx)
    (hnb : isBinaryVol v = false) (h0 : 0 ≤ t) (h1 : t ≤ 1)
    (_hp : inBounds v.shape p = true) :
    dataAt (threshold_roi_mask v t) p =
      some (if v.data p ≥ (if volMaxVal v > 11/10 then 100 * t else t) then 1 else 0) := by
  have hgate : ¬ (t < 0 ∨ t > 1) := by
    push_neg
    exact ⟨h0, h1⟩
  unfold threshold_roi_mask
  rw [if_neg hgate]
  simp only [dataAt]
  unfold binarizeData
  rw [if_neg (by simp [hnb] : ¬ isBinaryVol v = true)]
  unfold effectiveThreshold
  rw [mul_comm t 100]
  by_cases hc : v.data p ≥ (if volMaxVal v > 11/10 then 100 * t else t)
  · rw [if_pos hc, npCastUInt8_one]
  · rw [if_neg hc, npCastUInt8_zero]

/-- Witness for C5, the spec's own boundary test: volume values 87, 29.9,
30 with threshold 0.3 — maximum 87 > 1.1, effective threshold 30, so
87 ↦ 1, 29.9 ↦ 0, 30 ↦ 1. -/
theorem threshold_policy_witness :
    dataAt (threshold_roi_mask v87 (3/10)) (0, 0, 0) = some 1 ∧
    dataAt (threshold_roi_mask v87 (3/10)) (1, 0, 0) = some 0 ∧
    dataAt (threshold_roi_mask v87 (3/10)) (2, 0, 0) = some 1 ∧
    volMaxVal v87 = 87 := by
  refine ⟨?_, ?_, ?_, volMaxVal_v87⟩
  · rw [threshold_policy v87 (3/10) (0, 0, 0) isBinaryVol_v87 (by norm_num) (by norm_num)
      (by decide)]
    rw [volMaxVal_v87, if_pos (by norm_num : (87 : ℚ) > 11/10),
      show v87.data (0, 0, 0) = 87 from rfl,
      if_pos (by norm_num : (87 : ℚ) ≥ 100 * (3/10))]
  · rw [threshold_policy v87 (3/10) (1, 0, 0) isBinaryVol_v87 (by norm_num) (by norm_num)
      (by decide)]
    rw [volMaxVal_v87, if_pos (by norm_num : (87 : ℚ) > 11/10),
      show v87.data (1, 0, 0) = 299/10 from rfl,
      if_neg (by norm_num : ¬ (299 : ℚ)/10 ≥ 100 * (3/10))]
  · rw [threshold_policy v87 (3/10) (2, 0, 0) isBinaryVol_v87 (by norm_num) (by norm_num)
      (by decide)]
    rw [volMaxVal_v87, if_pos (by norm_num : (87 : ℚ) > 11/10),
      show v87.data (2, 0, 0) = 30 from rfl,
      if_pos (by norm_num : (30 : ℚ) ≥ 100 * (3/10))]

/-! ### Claim C1 — tissue binarization inside local-mask derivation -/

/-- Claim C1 (amended): in `extract_local_csf_mask`, a non-binary tissue
volume is binarized by comparing each voxel directly against
`csf_threshold` (value ≥ threshold ⇒ 1, else 0); the Binarizer's
auto-rescale policy is **not** applied, even when the tissue maximum exceeds
1.1 — see the counterexample against the original claim. -/
theorem extract_thresholds_without_rescale (csf roiB dil : NiftiImage) (t : ℚ) (p : Idx)
    (hnb : isBinaryVol csf = false)
    (hok : isOkE (extract_local_csf_mask csf roiB dil t) = true) :
    dataAt (extract_local_csf_mask csf roiB dil t) p =
      some (if csf.data p ≥ t ∧ dil.data p > 0 ∧ roiB.data p = 0 then 1 else 0) := by
  unfold extract_local_csf_mask at hok ⊢
  by_cases hsh : csf.shape = roiB.shape ∧ csf.shape = dil.shape
  · rw [if_pos hsh] at hok ⊢
    by_cases hsum : localSum dil.shape (localCsfOf (thresholdedCsf csf t) roiB dil) = 0
    · rw [if_pos hsum] at hok
      simp [isOkE] at hok
    · rw [if_neg hsum]
      simp only [dataAt]
      have hth : thresholdedCsf csf t p = if csf.data p ≥ t then 1 else 0 := by
        unfold thresholdedCsf
        rw [if_neg (by simp [hnb] : ¬ isBinaryVol csf = true)]
      unfold localCsfOf
      rw [hth]
      by_cases hcs : csf.data p ≥ t
      · rw [if_pos hcs]
        by_cases hrest : dil.data p > 0 ∧ roiB.data p = 0
        · rw [if_pos ⟨by norm_num, hrest.1, hrest.2⟩, if_pos ⟨hcs, hrest⟩, npCastUInt8_one]
        · rw [if_neg (fun h => hrest ⟨h.2.1, h.2.2⟩),
            if_neg (fun h : csf.data p ≥ t ∧ dil.data p > 0 ∧ roiB.data p = 0 =>
              hrest ⟨h.2.1, h.2.2⟩), npCastUInt8_zero]
      · rw [if_neg hcs]
        rw [if_neg (fun h : (0 : ℚ) > 0 ∧ dil.data p > 0 ∧ roiB.data p = 0 =>
              absurd h.1 (by norm_num)),
          if_neg (fun h : csf.data p ≥ t ∧ dil.data p > 0 ∧ roiB.data p = 0 => hcs h.1),
          npCastUInt8_zero]
  · rw [if_neg hsh] at hok
    simp [isOkE] at hok

/-- Witness for C1's amended theorem: on the 2×1×1 tissue volume [87, 30]
with threshold 0.6, voxel (0,0,0) follows the plain ≥-threshold rule and
comes out 1. -/
theorem extract_thresholds_without_rescale_witness :
    dataAt (extract_local_csf_mask tVol maskZero2 maskOne2 (3/5)) (0, 0, 0) =
      some (if tVol.data (0, 0, 0) ≥ 3/5 ∧ maskOne2.data (0, 0, 0) > 0 ∧
              maskZero2.data (0, 0, 0) = 0 then 1 else 0) ∧
    (if tVol.data (0, 0, 0) ≥ 3/5 ∧ maskOne2.data (0, 0, 0) > 0 ∧
        maskZero2.data (0, 0, 0) = 0 then (1 : ℚ) else 0) = 1 := by
  refine ⟨extract_thresholds_without_rescale tVol maskZero2 maskOne2 (3/5) (0, 0, 0)
    isBinaryVol_tVol extract_tVol_ok, ?_⟩
  rw [if_pos (⟨by norm_num [tVol], by norm_num [maskOne2], by norm_num [maskZero2]⟩ :
    tVol.data (0, 0, 0) ≥ 3/5 ∧ maskOne2.data (0, 0, 0) > 0 ∧ maskZero2.data (0, 0, 0) = 0)]

/-- Counterexample for C1 as stated: tissue volume [87, 30] has maximum
87 > 1.1, so the Binarizer's rules rescale threshold 0.6 to 60 and map the
voxel valued 30 to 0; `extract_local_csf_mask` maps the same voxel to 1 —
the tissue volume is *not* binarized by the Binarizer's rules. -/
theorem extract_rescale_cex :
    dataAt (extract_local_csf_mask tVol maskZero2 maskOne2 (3/5)) (1, 0, 0) = some 1 ∧
    dataAt (threshold_roi_mask tVol (3/5)) (1, 0, 0) = some 0 ∧
    isBinaryVol tVol = false ∧ volMaxVal tVol > 11/10 :=
  ⟨extract_tVol_data, threshold_tVol_data, isBinaryVol_tVol,
    by rw [volMaxVal_tVol]; norm_num⟩

/-! ### Claim C4 — grid validation in local-mask derivation -/

/-- Claim C4 (amended): `extract_local_csf_mask` performs no grid
validation at all — three identically-shaped volumes whose affines all
differ are combined without any error, and the output simply carries the
dilated mask's affine.  (Shape mismatches surface only as low-level numpy
broadcast failures, not as a grid check.) -/
theorem extract_no_grid_check (csf roiB dil : NiftiImage) (t : ℚ)
    (hs1 : csf.shape = roiB.shape) (hs2 : csf.shape = dil.shape)
    (hsum : localSum dil.shape (localCsfOf (thresholdedCsf csf t) roiB dil) ≠ 0) :
    isOkE (extract_local_csf_mask csf roiB dil t) = true ∧
    affineOf (extract_local_csf_mask csf roiB dil t) = some dil.affine := by
  unfold extract_local_csf_mask
  rw [if_pos ⟨hs1, hs2⟩, if_neg hsum]
  exact ⟨rfl, rfl⟩

/-- Witness for C4's amended theorem at concrete volumes whose three
affines are pairwise different. -/
theorem extract_no_grid_check_witness :
    isOkE (extract_local_csf_mask csfA1 roiB1 dilC1 (3/5)) = true ∧
    affineOf (extract_local_csf_mask csfA1 roiB1 dilC1 (3/5)) = some dilC1.affine ∧
    csfA1.affine ≠ roiB1.affine := by
  have h := extract_no_grid_check csfA1 roiB1 dilC1 (3/5) rfl rfl
    (by rw [localSum_csfA1]; norm_num)
  exact ⟨h.1, h.2, affA_ne_affB⟩

/-- Counterexample for C4 as stated: the three 1×1×1 inputs have pairwise
different affines (so their grids differ), yet `extract_local_csf_mask`
succeeds instead of raising a grid-mismatch error. -/
theorem extract_grid_mismatch_cex :
    isOkE (extract_local_csf_mask csfA1 roiB1 dilC1 (3/5)) = true ∧
    csfA1.affine ≠ roiB1.affine ∧ roiB1.affine ≠ dilC1.affine := by
  refine ⟨extract_csfA1_ok, affA_ne_affB, ?_⟩
  intro h
  have h00 := congrFun (congrFun h 0) 0
  simp [roiB1, dilC1, affB, affC] at h00

/-! ### Claim C3 — resampling skip condition -/

/-- Claim C3 (amended): `process_roi_mask` returns the input unchanged
exactly when the input's *shape* matches the template's — the affines are
never compared — and in every other case it resamples onto the template's
affine and shape (nearest-neighbor interpolation for binary input, linear
otherwise), failing when the resampled shape still differs. -/
theorem resample_skip_shape_only (R : Resampler) (roi tmpl : NiftiImage) :
    (roi.shape = tmpl.shape → process_roi_mask R roi tmpl = Except.ok roi) ∧
    (roi.shape ≠ tmpl.shape → ∀ w : NiftiImage,
      process_roi_mask R roi tmpl = Except.ok w →
      w = R roi tmpl.affine tmpl.shape
            (if isBinaryVol roi = true then Interp.nearest else Interp.linear) ∧
      w.shape = tmpl.shape) := by
  constructor
  · intro h
    unfold process_roi_mask
    rw [if_neg (by simpa using h : ¬ roi.shape ≠ tmpl.shape)]
  · intro hne w hw
    unfold process_roi_mask at hw
    rw [if_pos hne] at hw
    by_cases hps : (R roi tmpl.affine tmpl.shape
        (if isBinaryVol roi = true then Interp.nearest else Interp.linear)).shape
        ≠ tmpl.shape
    · rw [if_pos hps] at hw
      cases hw
    · rw [if_neg hps] at hw
      have hw2 := Except.ok.inj hw
      refine ⟨hw2.symm, ?_⟩
      rw [← hw2]
      exact not_ne_iff.mp hps

/-- Witness for C3's amended theorem: equal shapes skip resampling even
with different affines; unequal shapes go through the resampler and come
out on the template's shape. -/
theorem resample_skip_shape_only_witness :
    process_roi_mask idResample roiS tmplS = Except.ok roiS ∧
    wBig.shape = tmplBig.shape := by
  refine ⟨(resample_skip_shape_only idResample roiS tmplS).1 rfl, ?_⟩
  exact ((resample_skip_shape_only constResample roiS tmplBig).2 (by decide) wBig rfl).2

/-- Counterexample for C3 as stated: the ROI and template share the shape
(1,1,1) but have different affines, so their grids differ; the claim
requires resampling in that case, yet the code returns the input
unchanged. -/
theorem resample_skip_affine_ignored_cex :
    process_roi_mask idResample roiS tmplS = Except.ok roiS ∧
    roiS.shape = tmplS.shape ∧ roiS.affine ≠ tmplS.affine :=
  ⟨rfl, rfl, affA_ne_affB⟩

/-! ### Claim C6 — confound-augmentation alignment error -/

/-- Claim C6: when the confound table and the CSF time series have
different row counts, `add_local_csf_time_series_to_confound_file` raises
the alignment error and produces no output table — nothing is truncated or
padded. -/
theorem confound_length_mismatch (conf csfTs : Table) (roi : String)
    (hc : hasCol csfTs (csfColName roi) = true)
    (hne : nRows conf ≠ nRows csfTs) :
    add_local_csf_time_series_to_confound_file conf csfTs roi =
      Except.error PipelineError.alignmentError := by
  unfold add_local_csf_time_series_to_confound_file
  rw [if_neg (by simp [hc]), if_pos hne]

/-- Witness for C6, the spec's own test: 150 confound rows against a
148-sample series raises the alignment error. -/
theorem confound_length_mismatch_witness :
    add_local_csf_time_series_to_confound_file conf150 csf148 "PAG" =
      Except.error PipelineError.alignmentError ∧
    nRows conf150 = 150 ∧ nRows csf148 = 148 := by
  have h150 : nRows conf150 = 150 := by simp [conf150, nRows]
  have h148 : nRows csf148 = 148 := by simp [csf148, nRows]
  refine ⟨confound_length_mismatch conf150 csf148 "PAG" (by decide) ?_, h150, h148⟩
  rw [h150, h148]
  norm_num

/-! ### Claim C7 — confound-augmentation effect -/

/-- Claim C7: with matching row counts, the CSF column is inserted under
`{roi}_local_csf` — replacing an existing column of that name in place,
else appended as the last column — while every other column (hence the row
order) is unchanged. -/
theorem confound_augment_effect (conf csfTs : Table) (roi : String)
    (hc : hasCol csfTs (csfColName roi) = true)
    (hlen : nRows conf = nRows csfTs) :
    add_local_csf_time_series_to_confound_file conf csfTs roi =
      Except.ok (setCol conf (csfColName roi) ((getCol csfTs (csfColName roi)).getD [])) ∧
    getCol (setCol conf (csfColName roi) ((getCol csfTs (csfColName roi)).getD []))
      (csfColName roi) = some ((getCol csfTs (csfColName roi)).getD []) ∧
    (∀ m : String, m ≠ csfColName roi →
      getCol (setCol conf (csfColName roi) ((getCol csfTs (csfColName roi)).getD [])) m =
        getCol conf m) ∧
    colNames (setCol conf (csfColName roi) ((getCol csfTs (csfColName roi)).getD [])) =
      (if hasCol conf (csfColName roi) = true then colNames conf
       else colNames conf ++ [csfColName roi]) := by
  refine ⟨?_, getCol_setCol_self _ _ _, fun m hm => getCol_setCol_other _ _ _ _ hm,
    colNames_setCol _ _ _⟩
  unfold add_local_csf_time_series_to_confound_file
  rw [if_neg (by simp [hc]), if_neg (by simp [hlen])]

/-- Witness for C7 on concrete 3-row tables. -/
theorem confound_augment_effect_witness :
    add_local_csf_time_series_to_confound_file confT csfT "PAG" =
      Except.ok (setCol confT (csfColName "PAG") ((getCol csfT (csfColName "PAG")).getD [])) ∧
    getCol (setCol confT (csfColName "PAG") ((getCol csfT (csfColName "PAG")).getD []))
      (csfColName "PAG") = some ((getCol csfT (csfColName "PAG")).getD []) ∧
    getCol (setCol confT (csfColName "PAG") ((getCol csfT (csfColName "PAG")).getD [])) "X" =
      getCol confT "X" := by
  have h := confound_augment_effect confT csfT "PAG" (by decide) (by decide)
  exact ⟨h.1, h.2.1, h.2.2.1 "X" (by decide)⟩

/-! ### Claim C9 — batch reporting of missing confound columns -/

/-- Claim C9: with an explicit confound selection of which at least one
name is absent from the confound table, `compute_functional_timeseries`
raises a single error listing *all* the missing names (every absent
requested name is in the reported list). -/
theorem missing_confounds_listed_batch (conf : Table) (roiName c0 : String)
    (vars : List String) (h0 : c0 ∈ vars) (hm : hasCol conf c0 = false) :
    confoundMatrix conf roiName (ConfoundSel.explicitSel vars) =
      Except.error (PipelineError.missingColumns
        (vars.filter fun c => !(hasCol conf c))) ∧
    ∀ c : String, c ∈ vars → hasCol conf c = false →
      c ∈ vars.filter fun c => !(hasCol conf c) := by
  constructor
  · have hmem : c0 ∈ vars.filter fun c => !(hasCol conf c) :=
      List.mem_filter.mpr ⟨h0, by rw [hm]; rfl⟩
    have hne : ¬ (vars.filter fun c => !(hasCol conf c)) = [] := by
      intro h
      rw [h] at hmem
      cases hmem
    simp only [confoundMatrix, resolveConfoundVars]
    rw [if_neg hne]
  · intro c hc hcf
    exact List.mem_filter.mpr ⟨hc, by rw [hcf]; rfl⟩

/-- Witness for C9: requesting X, Q, R against a table with columns X, Y
reports exactly the full missing list [Q, R]. -/
theorem missing_confounds_listed_batch_witness :
    confoundMatrix confT "PAG" (ConfoundSel.explicitSel ["X", "Q", "R"]) =
      Except.error (PipelineError.missingColumns
        (["X", "Q", "R"].filter fun c => !(hasCol confT c))) ∧
    (["X", "Q", "R"].filter fun c => !(hasCol confT c)) = ["Q", "R"] :=
  ⟨(missing_confounds_listed_batch confT "PAG" "Q" ["X", "Q", "R"]
      (by decide) (by decide)).1, by decide⟩

/-! ### Claim C10 — mask outputs are binary uint8 -/

theorem npCastUInt8_of_bin {x : ℚ} (h : x = 0 ∨ x = 1) :
    npCastUInt8 x = 0 ∨ npCastUInt8 x = 1 := by
  rcases h with rfl | rfl
  · exact Or.inl npCastUInt8_zero
  · exact Or.inr npCastUInt8_one

/-- Claim C10: each of the three mask-producing operations, whenever it
succeeds, yields a volume whose voxels are all exactly 0 or 1, stored with
dtype uint8.  (For `threshold_roi_mask` the {0,1} guarantee concerns the
in-bounds voxels, as the already-binary branch copies the input data.) -/
theorem masks_binary_uint8 (v csf roiB dil img : NiftiImage) (t ct : ℚ) (k : ℕ) (p : Idx) :
    ((isOkE (threshold_roi_mask v t) = true →
        dtypeOf (threshold_roi_mask v t) = some DType.uint8) ∧
      (inBounds v.shape p = true → ∀ q : ℚ,
        dataAt (threshold_roi_mask v t) p = some q → q = 0 ∨ q = 1)) ∧
    ((isOkE (dilate_binary_roi_mask img k) = true →
        dtypeOf (dilate_binary_roi_mask img k) = some DType.uint8) ∧
      (∀ q : ℚ, dataAt (dilate_binary_roi_mask img k) p = some q → q = 0 ∨ q = 1)) ∧
    ((isOkE (extract_local_csf_mask csf roiB dil ct) = true →
        dtypeOf (extract_local_csf_mask csf roiB dil ct) = some DType.uint8) ∧
      (∀ q : ℚ, dataAt (extract_local_csf_mask csf roiB dil ct) p = some q →
        q = 0 ∨ q = 1)) := by
  refine ⟨⟨?_, ?_⟩, ⟨?_, ?_⟩, ⟨?_, ?_⟩⟩
  · intro hok
    unfold threshold_roi_mask at hok ⊢
    by_cases hg : t < 0 ∨ t > 1
    · rw [if_pos hg] at hok
      simp [isOkE] at hok
    · rw [if_neg hg]
      rfl
  · intro hp q hq
    unfold threshold_roi_mask at hq
    by_cases hg : t < 0 ∨ t > 1
    · rw [if_pos hg] at hq
      simp [dataAt] at hq
    · rw [if_neg hg] at hq
      simp only [dataAt] at hq
      have hq2 := Option.some.inj hq
      subst hq2
      by_cases hbin : isBinaryVol v = true
      · rw [binarizeData_binary hbin]
        exact npCastUInt8_of_bin (isBinaryVol_iff.mp hbin p hp)
      · rw [binarizeData_nonbinary (Bool.eq_false_iff.mpr hbin) p]
        refine npCastUInt8_of_bin ?_
        by_cases hc : v.data p ≥ effectiveThreshold v t
        · rw [if_pos hc]
          exact Or.inr rfl
        · rw [if_neg hc]
          exact Or.inl rfl
  · intro hok
    unfold dilate_binary_roi_mask at hok ⊢
    by_cases hb : isBinaryVol img = true
    · rw [if_pos hb]
      rfl
    · rw [if_neg hb] at hok
      simp [isOkE] at hok
  · intro q hq
    unfold dilate_binary_roi_mask at hq
    by_cases hb : isBinaryVol img = true
    · rw [if_pos hb] at hq
      simp only [dataAt] at hq
      have hq2 := Option.some.inj hq
      subst hq2
      refine npCastUInt8_of_bin ?_
      by_cases hd : binaryDilationNp img.shape (maskOf img) k p = true
      · rw [if_pos hd]
        exact Or.inr rfl
      · rw [if_neg hd]
        exact Or.inl rfl
    · rw [if_neg hb] at hq
      simp [dataAt] at hq
  · intro hok
    unfold extract_local_csf_mask at hok ⊢
    by_cases hsh : csf.shape = roiB.shape ∧ csf.shape = dil.shape
    · rw [if_pos hsh] at hok ⊢
      by_cases hsum : localSum dil.shape (localCsfOf (thresholdedCsf csf ct) roiB dil) = 0
      · rw [if_pos hsum] at hok
        simp [isOkE] at hok
      · rw [if_neg hsum]
        rfl
    · rw [if_neg hsh] at hok
      simp [isOkE] at hok
  · intro q hq
    unfold extract_local_csf_mask at hq
    by_cases hsh : csf.shape = roiB.shape ∧ csf.shape = dil.shape
    · rw [if_pos hsh] at hq
      by_cases hsum : localSum dil.shape (localCsfOf (thresholdedCsf csf ct) roiB dil) = 0
      · rw [if_pos hsum] at hq
        simp [dataAt] at hq
      · rw [if_neg hsum] at hq
        simp only [dataAt] at hq
        have hq2 := Option.some.inj hq
        subst hq2
        refine npCastUInt8_of_bin ?_
        unfold localCsfOf
        by_cases hc : thresholdedCsf csf ct p > 0 ∧ dil.data p > 0 ∧ roiB.data p = 0
        · rw [if_pos hc]
          exact Or.inr rfl
        · rw [if_neg hc]
          exact Or.inl rfl
    · rw [if_neg hsh] at hq
      simp [dataAt] at hq

/-- Witness for C10 at concrete inputs: each operation succeeds, reports
dtype uint8, and the theorem instantiates to the produced voxel values. -/
theorem masks_binary_uint8_witness :
    dtypeOf (threshold_roi_mask v87 (3/10)) = some DType.uint8 ∧
    ((1 : ℚ) = 0 ∨ (1 : ℚ) = 1) ∧
    dtypeOf (dilate_binary_roi_mask img3 1) = some DType.uint8 ∧
    ((1 : ℚ) = 0 ∨ (1 : ℚ) = 1) ∧
    dtypeOf (extract_local_csf_mask csfA1 roiB1 dilC1 (3/5)) = some DType.uint8 ∧
    ((1 : ℚ) = 0 ∨ (1 : ℚ) = 1) := by
  have h := masks_binary_uint8 v87 csfA1 roiB1 dilC1 img3 (3/10) (3/5) 1 (0, 0, 0)
  exact ⟨h.1.1 threshold_v87_ok, h.1.2 (by decide) 1 threshold_v87_data,
    h.2.1.1 (by decide), h.2.1.2 1 (by decide),
    h.2.2.1 extract_csfA1_ok, h.2.2.2 1 extract_csfA1_data⟩

end LocalCsf
